import Mathlib

/-!
Verification development for the adaptive viewport-fitting engine of the
`render-pulse-svg` tool: the Vega-Lite formatter transform, the bounded
padding/render loop, the SVG geometry extractor and the viewBox fitter.

JavaScript numbers are modelled as `Option ℚ` (`none` plays the role of
`NaN`, which propagates through arithmetic and makes every comparison
false); exact rational arithmetic stands in for IEEE doubles.  Strings are
Lean `String`s (in this toolchain a wrapper around `List Char`), and the
regex-driven scans of the source are embedded as explicit left-to-right
character scans with the same matching semantics.
-/

/- The rational operations from the standard library are marked
irreducible, which blocks `decide`-style evaluation of the concrete
examples below; restore default reducibility for them in this file. -/
set_option allowUnsafeReducibility true
attribute [local semireducible] Rat.add Rat.sub Rat.mul Rat.div Rat.inv

/-! ## JavaScript number model -/

/-- A JavaScript number: `none` models `NaN`. -/
abbrev JNum := Option ℚ

def jadd : JNum → JNum → JNum
  | some a, some b => some (a + b)
  | _, _ => none

def jsub : JNum → JNum → JNum
  | some a, some b => some (a - b)
  | _, _ => none

def jmul : JNum → JNum → JNum
  | some a, some b => some (a * b)
  | _, _ => none

def jdiv : JNum → JNum → JNum
  | some a, some b => some (a / b)
  | _, _ => none

/-- `Math.min`: `NaN` if either argument is `NaN`. -/
def jmin : JNum → JNum → JNum
  | some a, some b => some (min a b)
  | _, _ => none

/-- `Math.max`: `NaN` if either argument is `NaN`. -/
def jmax : JNum → JNum → JNum
  | some a, some b => some (max a b)
  | _, _ => none

/-- `Math.abs`. -/
def jabs : JNum → JNum
  | some a => some |a|
  | none => none

/-- The JavaScript `<` comparison: false whenever an operand is `NaN`. -/
def jlt : JNum → JNum → Bool
  | some a, some b => decide (a < b)
  | _, _ => false

/-- `x ?? y`, null-coalescing where the left side is an optional attribute. -/
def jcoalesce (x : Option JNum) (y : JNum) : JNum := x.getD y

/-- `x || 0`: `NaN` (and `0` itself) collapse to `0`. -/
def jor0 (x : JNum) : ℚ := x.getD 0

/-! ## `parseFloat` -/

/-- JavaScript whitespace recognised by `parseFloat`. -/
def isJsWs (c : Char) : Bool :=
  c = ' ' ∨ c = '\t' ∨ c = '\n' ∨ c = '\r' ∨ c = '\x0b' ∨ c = '\x0c'

def digitsToNat (l : List Char) : ℕ :=
  l.foldl (fun acc c => 10 * acc + (c.toNat - '0'.toNat)) 0

/-- Parse an optional exponent suffix `e`/`E` sign digits; as in
`parseFloat`, an exponent marker not followed by a digit is ignored. -/
def parseExponent (l : List Char) : ℤ :=
  match l with
  | 'e' :: rest | 'E' :: rest =>
    let (sgn, rest') : ℤ × List Char :=
      match rest with
      | '-' :: r => (-1, r)
      | '+' :: r => (1, r)
      | _ => (1, rest)
    let ds := rest'.takeWhile Char.isDigit
    if ds = [] then 0 else sgn * (digitsToNat ds : ℤ)
  | _ => 0

/-- Model of JavaScript `parseFloat`: leading whitespace and trailing junk
are ignored; if no digits can be read the result is `NaN`. -/
def parseFloat (s : List Char) : JNum :=
  let s1 := s.dropWhile isJsWs
  let (sgn, s2) : ℚ × List Char :=
    match s1 with
    | '-' :: r => (-1, r)
    | '+' :: r => (1, r)
    | _ => (1, s1)
  let intDigits := s2.takeWhile Char.isDigit
  let s3 := s2.drop intDigits.length
  let (fracDigits, s4) : List Char × List Char :=
    match s3 with
    | '.' :: r => (r.takeWhile Char.isDigit, r.drop (r.takeWhile Char.isDigit).length)
    | _ => ([], s3)
  if intDigits = [] ∧ fracDigits = [] then none
  else
    let mant : ℚ :=
      (digitsToNat intDigits : ℚ) + (digitsToNat fracDigits : ℚ) / ((10 : ℚ) ^ fracDigits.length)
    some (sgn * mant * (10 : ℚ) ^ parseExponent s4)

/-! ## FormatterTransformer (`transformVegaLiteSpec`) -/

/-- Per-character expansion realised by the source's five sequential
global single-character replacements (backslash first; replacements are
never rescanned, so the composite is exactly this character map). -/
def escapeCharVega (c : Char) : List Char :=
  if c = '\\' then ['\\', '\\']
  else if c = '\'' then ['\\', '\'']
  else if c = '\n' then ['\\', 'n']
  else if c = '\r' then ['\\', 'r']
  else if c = '\t' then ['\\', 't']
  else [c]

/-- `escapeForVegaExpr`: escape backslash, single quote, newline, carriage
return and tab before embedding in a Vega expression literal. -/
def escapeForVegaExpr (s : String) : String :=
  ⟨s.data.flatMap escapeCharVega⟩

def unescapeCharVega (c : Char) : Char :=
  if c = 'n' then '\n' else if c = 'r' then '\r' else if c = 't' then '\t' else c

/-- Left-to-right decoder for the escape sequences produced by
`escapeForVegaExpr`. -/
def unescapeVegaList : List Char → List Char
  | [] => []
  | [c] => [c]
  | c1 :: c2 :: rest =>
    if c1 = '\\' then unescapeCharVega c2 :: unescapeVegaList rest
    else c1 :: unescapeVegaList (c2 :: rest)

def unescapeVegaExpr (s : String) : String :=
  ⟨unescapeVegaList s.data⟩

/-- A named lookup-map table: map name to `(rawValue, displayString)`
entries in original insertion order. -/
abbrev FormatterMaps := List (String × List (String × String))

def lookupMap (maps : FormatterMaps) (name : String) : Option (List (String × String)) :=
  (maps.find? (fun p => p.1 == name)).map Prod.snd

/-- One step of the conditional chain:
`datum.value === '<key>' ? '<value>' : <rest>`. -/
def labelExprCond (kv : String × String) (rest : String) : String :=
  "datum.value === '" ++ escapeForVegaExpr kv.1 ++ "' ? '" ++ escapeForVegaExpr kv.2 ++ "' : " ++ rest

/-- The chain built from the last entry backward over `'datum.value'`
(the source's reverse `for` loop is exactly this right fold). -/
def labelExprChain (entries : List (String × String)) : String :=
  entries.foldr labelExprCond "datum.value"

/-- `createLabelExpr`: identity expression when the referenced map is
missing, otherwise the conditional chain over its entries. -/
def createLabelExpr (maps : FormatterMaps) (mapName : String) : String :=
  match lookupMap maps mapName with
  | none => "datum.value"
  | some entries => labelExprChain entries

/-- `format: { custom: ..., mapName: ... }` on an axis. -/
structure AxisFormat where
  custom : Bool
  mapName : String
deriving DecidableEq

/-- The axis object of an encoding channel: the fields the transformer
reads or writes. -/
structure AxisDef where
  format : Option AxisFormat
  labelExpr : Option String
deriving DecidableEq

/-- One rewrite of an axis: if it carries a truthy `format.custom`, the
format marker is deleted and `labelExpr` synthesized; otherwise it is
left untouched. -/
def transformAxis (maps : FormatterMaps) (a : AxisDef) : AxisDef :=
  match a.format with
  | some f =>
    if f.custom then { format := none, labelExpr := some (createLabelExpr maps f.mapName) }
    else a
  | none => a

/-- A layer node: optional x/y axis encodings plus nested child layers. -/
inductive LayerNode where
  | node : Option AxisDef → Option AxisDef → List LayerNode → LayerNode

mutual
/-- `transformLayer`: rewrite both axes, then recursively transform the
child layers. -/
def transformLayer (maps : FormatterMaps) : LayerNode → LayerNode
  | .node x y children =>
    .node (x.map (transformAxis maps)) (y.map (transformAxis maps)) (transformLayers maps children)

def transformLayers (maps : FormatterMaps) : List LayerNode → List LayerNode
  | [] => []
  | c :: cs => transformLayer maps c :: transformLayers maps cs
end

/-- The top-level Vega-Lite spec object, restricted to the fields the
transformer touches. -/
structure VegaLiteSpec where
  xAxis : Option AxisDef
  yAxis : Option AxisDef
  children : List LayerNode
  customFormatterMaps : Option FormatterMaps

/-- `transformVegaLiteSpec`: deep-clone semantics (a new value is built),
transform the top level, transform the child layers a second time (as the
source does), and delete `customFormatterMaps`. -/
def transformVegaLiteSpec (s : VegaLiteSpec) : VegaLiteSpec :=
  let maps := s.customFormatterMaps.getD []
  match transformLayer maps (.node s.xAxis s.yAxis s.children) with
  | .node x y cs =>
    { xAxis := x, yAxis := y, children := transformLayers maps cs,
      customFormatterMaps := none }

/-! ## RenderCoordinator: padding normalization and the render loop -/

structure ScenegraphBounds where
  x1 : ℚ
  y1 : ℚ
  x2 : ℚ
  y2 : ℚ
deriving DecidableEq

structure BoxPadding where
  top : ℚ
  bottom : ℚ
  left : ℚ
  right : ℚ
deriving DecidableEq

def DEFAULT_PADDING : BoxPadding := { top := 8, left := 12, bottom := 12, right := 28 }

def OVERFLOW_EPSILON : ℚ := 1

/-- The `padding` input of a Vega spec: a uniform scalar, a partial
per-side override, or absent. -/
inductive PaddingInput where
  | num : ℚ → PaddingInput
  | part : Option ℚ → Option ℚ → Option ℚ → Option ℚ → PaddingInput
  | absent : PaddingInput

/-- `normalizePadding`: promote a scalar to all four sides, merge a
partial override over the fallback, clamping every side at zero. -/
def normalizePadding (padding : PaddingInput) (fallback : BoxPadding) : BoxPadding :=
  match padding with
  | .num q =>
    let n := max 0 q
    { top := n, bottom := n, left := n, right := n }
  | .part t b l r =>
    { top := max 0 (t.getD fallback.top), bottom := max 0 (b.getD fallback.bottom),
      left := max 0 (l.getD fallback.left), right := max 0 (r.getD fallback.right) }
  | .absent =>
    { top := max 0 fallback.top, bottom := max 0 fallback.bottom,
      left := max 0 fallback.left, right := max 0 fallback.right }

def addPadding (base extra : BoxPadding) : BoxPadding :=
  { top := base.top + extra.top, bottom := base.bottom + extra.bottom,
    left := base.left + extra.left, right := base.right + extra.right }

/-- `computePaddingAdjustment`: per-side overflow of the reported bounds
against `[0,viewWidth] × [0,viewHeight]`, each overflowing side rounded up
after adding the 1-unit epsilon; `none` when no side overflows (or the
renderer reported no bounds). -/
def computePaddingAdjustment (bounds : Option ScenegraphBounds) (viewWidth viewHeight : ℚ) :
    Option BoxPadding :=
  match bounds with
  | none => none
  | some b =>
    let leftOverflow : ℚ := if b.x1 < 0 then ((⌈|b.x1| + OVERFLOW_EPSILON⌉ : ℤ) : ℚ) else 0
    let topOverflow : ℚ := if b.y1 < 0 then ((⌈|b.y1| + OVERFLOW_EPSILON⌉ : ℤ) : ℚ) else 0
    let rightOverflow : ℚ :=
      if viewWidth < b.x2 then ((⌈b.x2 - viewWidth + OVERFLOW_EPSILON⌉ : ℤ) : ℚ) else 0
    let bottomOverflow : ℚ :=
      if viewHeight < b.y2 then ((⌈b.y2 - viewHeight + OVERFLOW_EPSILON⌉ : ℤ) : ℚ) else 0
    if leftOverflow = 0 ∧ topOverflow = 0 ∧ rightOverflow = 0 ∧ bottomOverflow = 0 then none
    else
      some { top := topOverflow, bottom := bottomOverflow,
             left := leftOverflow, right := rightOverflow }

/-- One render attempt as reported by the external renderer. -/
structure RenderResult where
  svg : String
  bounds : Option ScenegraphBounds
  viewWidth : ℚ
  viewHeight : ℚ

/-- The body of the `for (attempt = 0; attempt < 3; attempt++)` loop of
`renderVegaLiteToSvg`, as a fueled recursion.  Returns the final markup
together with the list of paddings actually sent to the renderer. -/
def renderLoopGo (render : BoxPadding → RenderResult) :
    ℕ → BoxPadding → String → String × List BoxPadding
  | 0, _, svg => (svg, [])
  | fuel + 1, p, _ =>
    let r := render p
    match computePaddingAdjustment r.bounds r.viewWidth r.viewHeight with
    | none => (r.svg, [p])
    | some adj =>
      let next := renderLoopGo render fuel (addPadding p adj) r.svg
      (next.1, p :: next.2)

/-- The padding-expansion render loop of `renderVegaLiteToSvg` (steps 5
and the loop): normalize the initial padding, then at most 3 attempts. -/
def renderPaddingLoop (render : BoxPadding → RenderResult) (padding : PaddingInput) :
    String × List BoxPadding :=
  renderLoopGo render 3 (normalizePadding padding DEFAULT_PADDING) ""

/-- The paddings used on the successive render attempts of one
invocation (one entry per external render call). -/
def renderAttemptPaddings (render : BoxPadding → RenderResult) (padding : PaddingInput) :
    List BoxPadding :=
  (renderPaddingLoop render padding).2

/-- All four margins are non-negative. -/
def padNonneg (p : BoxPadding) : Prop :=
  0 ≤ p.top ∧ 0 ≤ p.bottom ∧ 0 ≤ p.left ∧ 0 ≤ p.right

/-- Componentwise order on padding boxes. -/
def padLe (p q : BoxPadding) : Prop :=
  p.top ≤ q.top ∧ p.bottom ≤ q.bottom ∧ p.left ≤ q.left ∧ p.right ≤ q.right

/-- A deterministic stub renderer: on the default initial padding it
reports a half-unit overflow on the left side only; on any other padding
it reports bounds inside the view. -/
def halfOverflowStub : BoxPadding → RenderResult := fun p =>
  if p.left = 12 then
    { svg := "first", bounds := some { x1 := -(1/2), y1 := 0, x2 := 5, y2 := 5 },
      viewWidth := 10, viewHeight := 10 }
  else
    { svg := "second", bounds := some { x1 := 0, y1 := 0, x2 := 5, y2 := 5 },
      viewWidth := 10, viewHeight := 10 }

/-! ## GeometryExtractor: shape boxes -/

/-- An axis-aligned bounding box with JavaScript-number coordinates. -/
structure ShapeBox where
  minX : JNum
  minY : JNum
  maxX : JNum
  maxY : JNum
deriving DecidableEq

/-- `getCircleBounds`. -/
def getCircleBounds (cx cy r : JNum) : ShapeBox :=
  { minX := jsub cx r, minY := jsub cy r, maxX := jadd cx r, maxY := jadd cy r }

/-- `getLineBounds`. -/
def getLineBounds (x1 y1 x2 y2 : JNum) : ShapeBox :=
  { minX := jmin x1 x2, minY := jmin y1 y2, maxX := jmax x1 x2, maxY := jmax y1 y2 }

/-- `getRectBounds`. -/
def getRectBounds (x y width height : JNum) : ShapeBox :=
  { minX := x, minY := y, maxX := jadd x width, maxY := jadd y height }

/-- `getTextBounds`: the approximate text box.  The estimated full width
is `textLength * 0.6` when text content is available (`textLength > 0`),
else `fontSize * 5`; the estimated height is `fontSize * 1.2`, extending
fully above the baseline and half below. -/
def getTextBounds (x y fontSize : JNum) (textLength : ℕ) : ShapeBox :=
  let estimatedWidth : JNum :=
    if 0 < textLength then some ((textLength : ℚ) * (6 / 10)) else jmul fontSize (some 5)
  let estimatedHeight : JNum := jmul fontSize (some (12 / 10))
  { minX := jsub x (jdiv estimatedWidth (some 2)),
    minY := jsub y estimatedHeight,
    maxX := jadd x (jdiv estimatedWidth (some 2)),
    maxY := jadd y (jdiv estimatedHeight (some 2)) }

/-! ## GeometryExtractor: path data parsing (`getPathBounds`) -/

def isPathCmdChar (c : Char) : Bool :=
  (['M', 'm', 'L', 'l', 'H', 'h', 'V', 'v', 'C', 'c', 'Q', 'q', 'Z', 'z']).contains c

/-- The parameter character class `[-\d\s.,eE]` of the path tokenizer. -/
def isPathParamChar (c : Char) : Bool :=
  c = '-' ∨ c.isDigit ∨ isJsWs c ∨ c = '.' ∨ c = ',' ∨ c = 'e' ∨ c = 'E'

/-- Tokenize path data into (command letter, raw parameter run) pairs,
mimicking the global regex `([MmLlHhVvCcQqZz])\s*([-\d\s.,eE]+)?`:
characters that fit neither a command nor its parameter run (such as arc
commands and their arguments) are skipped. -/
def tokenizePathGo : ℕ → List Char → List (Char × List Char)
  | 0, _ => []
  | _, [] => []
  | fuel + 1, c :: rest =>
    if isPathCmdChar c then
      let afterWs := rest.dropWhile isJsWs
      let params := afterWs.takeWhile isPathParamChar
      (c, params) :: tokenizePathGo fuel (afterWs.drop params.length)
    else
      tokenizePathGo fuel rest

/-- Every scan step consumes at least the leading character, so fuel
equal to the length of the data always suffices. -/
def tokenizePath (l : List Char) : List (Char × List Char) :=
  tokenizePathGo l.length l

def isParamSepChar (c : Char) : Bool := isJsWs c ∨ c = ','

/-- Split a raw parameter run on `[\s,]+` separators (the empty tokens a
leading separator would produce parse to `NaN` and are filtered out just
afterward, so they are dropped here directly). -/
def splitParamsGo : ℕ → List Char → List (List Char)
  | 0, _ => []
  | _, [] => []
  | fuel + 1, c :: rest =>
    if isParamSepChar c then splitParamsGo fuel rest
    else
      let tok := (c :: rest).takeWhile (fun d => ¬ isParamSepChar d)
      tok :: splitParamsGo fuel ((c :: rest).drop tok.length)

def splitParams (l : List Char) : List (List Char) :=
  splitParamsGo l.length l

def takeCoordPairs : List ℚ → List (ℚ × ℚ)
  | a :: b :: rest => (a, b) :: takeCoordPairs rest
  | _ => []

def takeSixGroups : List ℚ → List (ℚ × ℚ × ℚ × ℚ × ℚ × ℚ)
  | a :: b :: c :: d :: e :: f :: rest => (a, b, c, d, e, f) :: takeSixGroups rest
  | _ => []

def takeFourGroups : List ℚ → List (ℚ × ℚ × ℚ × ℚ)
  | a :: b :: c :: d :: rest => (a, b, c, d) :: takeFourGroups rest
  | _ => []

/-- `M`/`L`: consume coordinate pairs, moving the pen and recording every
resulting point. -/
def processMoveLine (isRel : Bool) : ℚ × ℚ → List (ℚ × ℚ) → (ℚ × ℚ) × List (ℚ × ℚ)
  | cur, [] => (cur, [])
  | cur, (px, py) :: rest =>
    let cur' := if isRel then (cur.1 + px, cur.2 + py) else (px, py)
    let next := processMoveLine isRel cur' rest
    (next.1, cur' :: next.2)

/-- `H`: horizontal moves, one point per coordinate. -/
def processHorizontal (isRel : Bool) : ℚ × ℚ → List ℚ → (ℚ × ℚ) × List (ℚ × ℚ)
  | cur, [] => (cur, [])
  | cur, x :: rest =>
    let cur' := (if isRel then cur.1 + x else x, cur.2)
    let next := processHorizontal isRel cur' rest
    (next.1, cur' :: next.2)

/-- `V`: vertical moves, one point per coordinate. -/
def processVertical (isRel : Bool) : ℚ × ℚ → List ℚ → (ℚ × ℚ) × List (ℚ × ℚ)
  | cur, [] => (cur, [])
  | cur, y :: rest =>
    let cur' := (cur.1, if isRel then cur.2 + y else y)
    let next := processVertical isRel cur' rest
    (next.1, cur' :: next.2)

/-- `C`: cubic Bézier; record both control points and the end point. -/
def processCubic (isRel : Bool) :
    ℚ × ℚ → List (ℚ × ℚ × ℚ × ℚ × ℚ × ℚ) → (ℚ × ℚ) × List (ℚ × ℚ)
  | cur, [] => (cur, [])
  | cur, (a, b, c, d, e, f) :: rest =>
    let cp1 := if isRel then (cur.1 + a, cur.2 + b) else (a, b)
    let cp2 := if isRel then (cur.1 + c, cur.2 + d) else (c, d)
    let cur' := if isRel then (cur.1 + e, cur.2 + f) else (e, f)
    let next := processCubic isRel cur' rest
    (next.1, cp1 :: cp2 :: cur' :: next.2)

/-- `Q`: quadratic Bézier; record the control point and the end point. -/
def processQuadratic (isRel : Bool) :
    ℚ × ℚ → List (ℚ × ℚ × ℚ × ℚ) → (ℚ × ℚ) × List (ℚ × ℚ)
  | cur, [] => (cur, [])
  | cur, (a, b, c, d) :: rest =>
    let cp := if isRel then (cur.1 + a, cur.2 + b) else (a, b)
    let cur' := if isRel then (cur.1 + c, cur.2 + d) else (c, d)
    let next := processQuadratic isRel cur' rest
    (next.1, cp :: cur' :: next.2)

/-- Run the tokenized path commands over the pen state, accumulating the
recorded coordinates in order. -/
def runPathCmds : List (Char × List ℚ) → (ℚ × ℚ) → List (ℚ × ℚ) → List (ℚ × ℚ)
  | [], _, coords => coords
  | (cmd, params) :: rest, cur, coords =>
    let isRel := cmd.isLower
    let cu := cmd.toUpper
    if cu = 'M' ∨ cu = 'L' then
      let r := processMoveLine isRel cur (takeCoordPairs params)
      runPathCmds rest r.1 (coords ++ r.2)
    else if cu = 'H' then
      let r := processHorizontal isRel cur params
      runPathCmds rest r.1 (coords ++ r.2)
    else if cu = 'V' then
      let r := processVertical isRel cur params
      runPathCmds rest r.1 (coords ++ r.2)
    else if cu = 'C' then
      let r := processCubic isRel cur (takeSixGroups params)
      runPathCmds rest r.1 (coords ++ r.2)
    else if cu = 'Q' then
      let r := processQuadratic isRel cur (takeFourGroups params)
      runPathCmds rest r.1 (coords ++ r.2)
    else if cu = 'Z' then
      match coords with
      | [] => runPathCmds rest cur coords
      | c0 :: _ => runPathCmds rest c0 (coords ++ [c0])
    else
      runPathCmds rest cur coords

/-- `getPathBounds`: tokenize, parse and filter the numeric parameters,
run the commands, and take the min/max of all recorded points; `none`
when no point was recorded. -/
def getPathBounds (d : List Char) : Option ShapeBox :=
  let cmds := (tokenizePath d).map
    (fun p => (p.1, (splitParams p.2).filterMap parseFloat))
  match runPathCmds cmds (0, 0) [] with
  | [] => none
  | c :: cs =>
    some { minX := some ((cs.map Prod.fst).foldl min c.1),
           minY := some ((cs.map Prod.snd).foldl min c.2),
           maxX := some ((cs.map Prod.fst).foldl max c.1),
           maxY := some ((cs.map Prod.snd).foldl max c.2) }

/-! ## GeometryExtractor: attribute and transform scanning -/

def isQuoteChar (c : Char) : Bool := c = '"' ∨ c = '\''

/-- Match `name=["']([^"']+)["']` at the head of `l` (for `pat` the
attribute name including `=`), returning the captured value. -/
def matchAttrValueAt (pat : List Char) (l : List Char) : Option (List Char) :=
  if l.take pat.length = pat then
    match l.drop pat.length with
    | q :: rest =>
      if isQuoteChar q then
        let run := rest.takeWhile (fun c => ¬ isQuoteChar c)
        if run ≠ [] ∧ rest.drop run.length ≠ [] then some run else none
      else none
    | [] => none
  else none

/-- First match of the attribute regex anywhere in the scanned text (the
attribute name may, as in the source, also match inside another
attribute's name or value). -/
def findAttrValue (pat : List Char) : List Char → Option (List Char)
  | [] => none
  | l@(_ :: rest) =>
    match matchAttrValueAt pat l with
    | some v => some v
    | none => findAttrValue pat rest

/-- A cumulative translation frame. -/
structure TransformFrame where
  tx : ℚ
  ty : ℚ
deriving DecidableEq

def isSepSpaceChar (c : Char) : Bool := c = ',' ∨ isJsWs c

/-- For the `translate(a b)` form: backtrack into the greedy first capture
`[^,)]+` to find its largest prefix followed by a whitespace separator
with at least one character left for the second capture. -/
def lastSplitIdx (run : List Char) : Option ℕ :=
  ((List.range (run.length - 1)).filter
    (fun i => decide (1 ≤ i) && (run[i]?.elim false isJsWs))).getLast?

def splitRunAtWs (run : List Char) : Option (List Char × List Char) :=
  match lastSplitIdx run with
  | none => none
  | some i =>
    let wsLen := ((run.drop i).takeWhile isJsWs).length
    let sepLen := min wsLen (run.length - i - 1)
    some (run.take i, run.drop (i + sepLen))

/-- Match `translate\(([^,)]+)[,\s]+([^)]+)\)` at the head of `l`,
returning the two raw captures. -/
def matchTranslateAt (l : List Char) : Option (List Char × List Char) :=
  if l.take 10 = "translate(".data then
    let body := l.drop 10
    let run := body.takeWhile (fun c => ¬ (c = ',' ∨ c = ')'))
    if run = [] then none
    else
      match body.drop run.length with
      | ',' :: rest2 =>
        let sep := rest2.takeWhile isSepSpaceChar
        let rest3 := rest2.drop sep.length
        let cap2 := rest3.takeWhile (fun c => c ≠ ')')
        if cap2 ≠ [] then
          if rest3.drop cap2.length ≠ [] then some (run, cap2) else none
        else
          match rest3, sep.getLast? with
          | _ :: _, some c2 => some (run, [c2])
          | _, _ => none
      | ')' :: _ => splitRunAtWs run
      | _ => none
  else none

def findTranslate : List Char → Option (List Char × List Char)
  | [] => none
  | l@(_ :: rest) =>
    match matchTranslateAt l with
    | some r => some r
    | none => findTranslate rest

/-- `parseTransform`: extract a `translate` pair from an optional
transform attribute; anything unusable yields the zero translation
(`parseFloat(x) || 0` collapses `NaN` to zero). -/
def parseTransform (t : Option (List Char)) : TransformFrame :=
  match t with
  | none => { tx := 0, ty := 0 }
  | some s =>
    match findTranslate s with
    | some (a, b) => { tx := jor0 (parseFloat a), ty := jor0 (parseFloat b) }
    | none => { tx := 0, ty := 0 }

/-! ## GeometryExtractor: tag scanning -/

inductive SvgTagKind where
  | g
  | path
  | circle
  | line
  | rect
  | text
deriving DecidableEq

/-- Recognise one of the alternation names `g|path|circle|line|rect|text`
at the head of the text following `<` (the names have pairwise distinct
first letters, so the alternation order is immaterial); returns the kind
and the name length. -/
def tagKindOf (l : List Char) : Option (SvgTagKind × ℕ) :=
  if l.take 4 = "path".data then some (.path, 4)
  else if l.take 6 = "circle".data then some (.circle, 6)
  else if l.take 4 = "line".data then some (.line, 4)
  else if l.take 4 = "rect".data then some (.rect, 4)
  else if l.take 4 = "text".data then some (.text, 4)
  else if l.take 1 = "g".data then some (.g, 1)
  else none

inductive SvgToken where
  | gOpen (attrs : List Char)
  | gClose
  | shape (kind : SvgTagKind) (attrs : List Char) (textRun : List Char)

/-- Tokenize the markup with the semantics of the global tag regex
`<(g|path|circle|line|rect|text)([^>]*?)(\/)?>|<\/(g)>`: attributes run
to the first `>` (a trailing `/` marks self-closing and is excluded); a
self-closing `g` is ignored entirely; for a `text` element the immediate
following text run (`^([^<]+)<`) is captured alongside. -/
def tokenizeSvgGo : ℕ → List Char → List SvgToken
  | 0, _ => []
  | _, [] => []
  | fuel + 1, '<' :: rest =>
    if rest.take 3 = "/g>".data then SvgToken.gClose :: tokenizeSvgGo fuel (rest.drop 3)
    else
      match tagKindOf rest with
      | some (kind, n) =>
        let afterName := rest.drop n
        let attrs0 := afterName.takeWhile (fun c => c ≠ '>')
        if attrs0.length < afterName.length then
          let selfClosing := attrs0.getLast? = some '/'
          let attrs := if selfClosing then attrs0.dropLast else attrs0
          let rest2 := afterName.drop (attrs0.length + 1)
          let toks : List SvgToken :=
            match kind with
            | .g => if selfClosing then [] else [SvgToken.gOpen attrs]
            | .text =>
              let run := rest2.takeWhile (fun c => c ≠ '<')
              let textRun := if run ≠ [] ∧ run.length < rest2.length then run else []
              [SvgToken.shape .text attrs textRun]
            | k => [SvgToken.shape k attrs []]
          toks ++ tokenizeSvgGo fuel rest2
        else
          []
      | none => tokenizeSvgGo fuel rest
  | fuel + 1, _ :: rest => tokenizeSvgGo fuel rest

/-- Every scan step consumes at least one character, so fuel equal to
the length of the markup always suffices. -/
def tokenizeSvg (l : List Char) : List SvgToken :=
  tokenizeSvgGo l.length l

/-- JavaScript `String.trim`. -/
def trimWs (l : List Char) : List Char :=
  ((l.dropWhile isJsWs).reverse.dropWhile isJsWs).reverse

/-- The untransformed box of one leaf element, from its attributes (and,
for text, the captured following text run); `none` when the required
attributes are missing or path data yields no point. -/
def shapeElementBounds (kind : SvgTagKind) (attrs : List Char) (textRun : List Char) :
    Option ShapeBox :=
  match kind with
  | .g => none
  | .path =>
    match findAttrValue "d=".data attrs with
    | some d => getPathBounds d
    | none => none
  | .circle =>
    match findAttrValue "cx=".data attrs, findAttrValue "cy=".data attrs,
        findAttrValue "r=".data attrs with
    | some cx, some cy, some r =>
      some (getCircleBounds (parseFloat cx) (parseFloat cy) (parseFloat r))
    | _, _, _ => none
  | .line =>
    match findAttrValue "x1=".data attrs, findAttrValue "y1=".data attrs,
        findAttrValue "x2=".data attrs, findAttrValue "y2=".data attrs with
    | some x1, some y1, some x2, some y2 =>
      some (getLineBounds (parseFloat x1) (parseFloat y1) (parseFloat x2) (parseFloat y2))
    | _, _, _, _ => none
  | .rect =>
    match findAttrValue "x=".data attrs, findAttrValue "y=".data attrs,
        findAttrValue "width=".data attrs, findAttrValue "height=".data attrs with
    | some x, some y, some w, some h =>
      some (getRectBounds (parseFloat x) (parseFloat y) (parseFloat w) (parseFloat h))
    | _, _, _, _ => none
  | .text =>
    match findAttrValue "x=".data attrs, findAttrValue "y=".data attrs with
    | some x, some y =>
      let fontSize :=
        match findAttrValue "font-size=".data attrs with
        | some fs => parseFloat fs
        | none => some 14
      some (getTextBounds (parseFloat x) (parseFloat y) fontSize (trimWs textRun).length)
    | _, _ => none

/-- The scan-relevant content of one token: a group entry with its parsed
translation, a group exit, or a leaf mark carrying its own element-level
translation and untransformed box. -/
inductive SvgEvent where
  | enter (f : TransformFrame)
  | leave
  | mark (f : TransformFrame) (box : Option ShapeBox)

def svgTokenEvent (tok : SvgToken) : SvgEvent :=
  match tok with
  | .gOpen attrs => .enter (parseTransform (findAttrValue "transform=".data attrs))
  | .gClose => .leave
  | .shape kind attrs textRun =>
    .mark (parseTransform (findAttrValue "transform=".data attrs))
      (shapeElementBounds kind attrs textRun)

structure SvgScanState where
  stack : List TransformFrame
  boxes : List ShapeBox

/-- The base identity frame pushed before the scan starts. -/
def baseFrame : TransformFrame := { tx := 0, ty := 0 }

def initSvgScanState : SvgScanState := { stack := [baseFrame], boxes := [] }

def offsetShapeBox (b : ShapeBox) (f : TransformFrame) : ShapeBox :=
  { minX := jadd b.minX (some f.tx), minY := jadd b.minY (some f.ty),
    maxX := jadd b.maxX (some f.tx), maxY := jadd b.maxY (some f.ty) }

/-- One step of the scan: group open pushes parent-cumulative plus this
group's translation; group close pops only when more than the base frame
is on the stack; a leaf records its box offset by stack top plus its own
element translation. -/
def svgScanStep (st : SvgScanState) (ev : SvgEvent) : SvgScanState :=
  match ev with
  | .enter f =>
    let top := st.stack.headD baseFrame
    { st with stack := { tx := top.tx + f.tx, ty := top.ty + f.ty } :: st.stack }
  | .leave =>
    if 1 < st.stack.length then { st with stack := st.stack.tail } else st
  | .mark f b =>
    match b with
    | none => st
    | some box =>
      let top := st.stack.headD baseFrame
      let total : TransformFrame := { tx := top.tx + f.tx, ty := top.ty + f.ty }
      { st with boxes := st.boxes ++ [offsetShapeBox box total] }

def svgEvents (s : String) : List SvgEvent :=
  (tokenizeSvg s.data).map svgTokenEvent

/-- The boxes recorded by a scan over an arbitrary event sequence. -/
def scanEventBoxes (evs : List SvgEvent) : List ShapeBox :=
  (evs.foldl svgScanStep initSvgScanState).boxes

/-- All transformed shape boxes recorded by one scan of the markup. -/
def svgShapeBoxes (s : String) : List ShapeBox :=
  scanEventBoxes (svgEvents s)

def addFrames (a b : TransformFrame) : TransformFrame :=
  { tx := a.tx + b.tx, ty := a.ty + b.ty }

def sumFrames (fs : List TransformFrame) : TransformFrame :=
  fs.foldl addFrames baseFrame

def unionShapeBoxes (b : ShapeBox) (bs : List ShapeBox) : ShapeBox :=
  { minX := bs.foldl (fun acc x => jmin acc x.minX) b.minX,
    minY := bs.foldl (fun acc x => jmin acc x.minY) b.minY,
    maxX := bs.foldl (fun acc x => jmax acc x.maxX) b.maxX,
    maxY := bs.foldl (fun acc x => jmax acc x.maxY) b.maxY }

/-- `calculateSvgContentBounds`: componentwise min/max over all recorded
boxes, `none` when no recognized shape yielded a box. -/
def calculateSvgContentBounds (s : String) : Option ShapeBox :=
  match svgShapeBoxes s with
  | [] => none
  | b :: bs => some (unionShapeBoxes b bs)

/-! ## ViewportFitter (`parseSvgAttributes`, `adjustSvgViewBox`) -/

structure SvgRootAttrs where
  width : Option JNum
  height : Option JNum
  viewBox : Option (List Char)
deriving DecidableEq

/-- The first `<svg[^>]*>` tag of the markup, if any. -/
def findSvgTag : List Char → Option (List Char)
  | [] => none
  | l@(_ :: rest) =>
    if l.take 4 = "<svg".data then
      let body := (l.drop 4).takeWhile (fun c => c ≠ '>')
      if body.length < (l.drop 4).length then some ("<svg".data ++ body ++ ['>'])
      else none
    else findSvgTag rest

/-- `parseSvgAttributes`: width, height and viewBox read off the first
`<svg ...>` tag (`none` = attribute absent, `some none` = unparsable,
i.e. `NaN`). -/
def parseSvgAttributes (s : String) : SvgRootAttrs :=
  match findSvgTag s.data with
  | none => { width := none, height := none, viewBox := none }
  | some tag =>
    { width := (findAttrValue "width=".data tag).map parseFloat,
      height := (findAttrValue "height=".data tag).map parseFloat,
      viewBox := findAttrValue "viewBox=".data tag }

/-- Stand-in for JavaScript number-to-string conversion (the proofs only
use that distinct finite values print distinctly). -/
def jsNumRepr (j : JNum) : String :=
  match j with
  | none => "NaN"
  | some q => if q.den = 1 then toString q.num else toString q.num ++ "/" ++ toString q.den

structure ViewBoxNums where
  minX : JNum
  minY : JNum
  width : JNum
  height : JNum
deriving DecidableEq

/-- Per-axis clamping of `adjustSvgViewBox`: a negative minimum is added
(in absolute value) to the extent and reset to 0, then the extent is
forced to at least 1.  (`NaN` fails both `<` comparisons and passes
through unchanged, as in the source.) -/
def clampViewBoxAxis (m e : JNum) : JNum × JNum :=
  let me1 := if jlt m (some 0) then (some 0, jadd e (jabs m)) else (m, e)
  (me1.1, if jlt me1.2 (some 1) then some 1 else me1.2)

/-- The viewBox numbers `adjustSvgViewBox` computes from the content
bounds and the root attributes: 2%-margin (at least 5) around the
content, unioned with the declared background box, then clamped. -/
def computeViewBoxNums (cb : ShapeBox) (attrs : SvgRootAttrs) : ViewBoxNums :=
  let contentWidth := jsub cb.maxX cb.minX
  let contentHeight := jsub cb.maxY cb.minY
  let paddingX := jmax (some 5) (jmul contentWidth (some (2 / 100)))
  let paddingY := jmax (some 5) (jmul contentHeight (some (2 / 100)))
  let svgWidth := jcoalesce attrs.width cb.maxX
  let svgHeight := jcoalesce attrs.height cb.maxY
  let overallMinX := jmin (some 0) (jsub cb.minX paddingX)
  let overallMinY := jmin (some 0) (jsub cb.minY paddingY)
  let overallMaxX := jmax svgWidth (jadd cb.maxX paddingX)
  let overallMaxY := jmax svgHeight (jadd cb.maxY paddingY)
  let xAxis := clampViewBoxAxis overallMinX (jsub overallMaxX overallMinX)
  let yAxis := clampViewBoxAxis overallMinY (jsub overallMaxY overallMinY)
  { minX := xAxis.1, minY := yAxis.1, width := xAxis.2, height := yAxis.2 }

def viewBoxString (v : ViewBoxNums) : String :=
  jsNumRepr v.minX ++ " " ++ jsNumRepr v.minY ++ " " ++ jsNumRepr v.width ++ " " ++
    jsNumRepr v.height

/-- The numeric viewBox computed for a markup string; `none` when no
content bounds were found. -/
def finalViewBoxNums (s : String) : Option ViewBoxNums :=
  (calculateSvgContentBounds s).map (fun cb => computeViewBoxNums cb (parseSvgAttributes s))

/-- The new viewBox value computed for a markup string; `none` when no
content bounds were found (markup returned unchanged). -/
def computeNewViewBox (s : String) : Option String :=
  (finalViewBoxNums s).map viewBoxString

/-- Match `viewBox=["'][^"']+["']` at the head, returning the length of
the matched span. -/
def matchViewBoxAttrAt (l : List Char) : Option ℕ :=
  if l.take 8 = "viewBox=".data then
    match l.drop 8 with
    | q :: rest =>
      if isQuoteChar q then
        let run := rest.takeWhile (fun c => ¬ isQuoteChar c)
        if run ≠ [] ∧ rest.drop run.length ≠ [] then some (8 + 1 + run.length + 1) else none
      else none
    | [] => none
  else none

/-- Replace the first `viewBox=...` attribute anywhere in the string (the
source's `String.replace` with a non-global regex). -/
def replaceFirstViewBoxAttr (newVal : List Char) : List Char → List Char
  | [] => []
  | l@(c :: rest) =>
    match matchViewBoxAttrAt l with
    | some n => "viewBox=\"".data ++ newVal ++ ['"'] ++ l.drop n
    | none => c :: replaceFirstViewBoxAttr newVal rest

/-- Insert ` viewBox="..."` just before the `>` of the first
`<svg ...>` tag; no tag, no change. -/
def insertViewBoxAfterSvgTag (newVal : List Char) : List Char → List Char
  | [] => []
  | l@(c :: rest) =>
    if l.take 4 = "<svg".data then
      let body := (l.drop 4).takeWhile (fun ch => ch ≠ '>')
      if body.length < (l.drop 4).length then
        "<svg".data ++ body ++ " viewBox=\"".data ++ newVal ++ "\">".data ++
          l.drop (4 + body.length + 1)
      else l
    else c :: insertViewBoxAfterSvgTag newVal rest

/-- `adjustSvgViewBox`: rewrite (or insert) the root viewBox with the
computed value; unchanged when no content was found. -/
def adjustSvgViewBox (s : String) : String :=
  match computeNewViewBox s with
  | none => s
  | some nvb =>
    if (parseSvgAttributes s).viewBox.isSome then ⟨replaceFirstViewBoxAttr nvb.data s.data⟩
    else ⟨insertViewBoxAfterSvgTag nvb.data s.data⟩

/-! ## Concrete example documents -/

/-- `circle cx=50 cy=50 r=10`, untransformed. -/
def circleSvgExample : String := "<circle cx=\"50\" cy=\"50\" r=\"10\"/>"

/-- The same circle nested inside groups translated by (10,20) then (5,5). -/
def nestedCircleSvgExample : String :=
  "<g transform=\"translate(10, 20)\"><g transform=\"translate(5, 5)\"><circle cx=\"50\" cy=\"50\" r=\"10\"/></g></g>"

/-- A well-formed example document for the fitter. -/
def plainSvgExample : String :=
  "<svg width=\"10\" height=\"10\"><circle cx=\"5\" cy=\"5\" r=\"1\"/></svg>"

/-- A root tag whose `width`/`height` attributes do not parse as numbers
(`parseFloat` yields `NaN`). -/
def nanWidthSvgExample : String :=
  "<svg width=\"z\" height=\"z\"><circle cx=\"5\" cy=\"5\" r=\"1\"/></svg>"

/-- Markup whose root tag sits inside the attribute span of a `text`
element: inserting the viewBox attribute changes the text element's
parsed attributes (its `x=` afterwards matches inside `viewBox=...`), so
the extracted content bounds of the fitter's own output differ from the
input's. -/
def pathologicalSvgExample : String :=
  "<text y=\"3\" <svg width=\"20\" height=\"20\"> <circle cx=\"5\" cy=\"5\" r=\"1\"/></svg>"

/-! ## Theorems -/

theorem renderLoopGo_length (render : BoxPadding → RenderResult) :
    ∀ (fuel : ℕ) (p : BoxPadding) (svg : String),
      (renderLoopGo render fuel p svg).2.length ≤ fuel := by
  intro fuel
  induction fuel with
  | zero => intro p svg; simp [renderLoopGo]
  | succ n ih =>
    intro p svg
    simp only [renderLoopGo]
    cases h : computePaddingAdjustment (render p).bounds (render p).viewWidth
        (render p).viewHeight with
    | none => simp
    | some adj => simpa using ih (addPadding p adj) (render p).svg

theorem normalizePadding_nonneg (padding : PaddingInput) (fallback : BoxPadding) :
    padNonneg (normalizePadding padding fallback) := by
  cases padding <;>
    exact ⟨le_max_left 0 _, le_max_left 0 _, le_max_left 0 _, le_max_left 0 _⟩

theorem overflow_term_nonneg (c : Prop) [Decidable c] (q : ℚ) (hq : c → 0 ≤ q) :
    (0 : ℚ) ≤ if c then ((⌈q⌉ : ℤ) : ℚ) else 0 := by
  by_cases hc : c
  · simp only [if_pos hc]
    exact_mod_cast Int.ceil_nonneg (hq hc)
  · simp only [if_neg hc]
    exact le_refl 0

theorem computePaddingAdjustment_nonneg {bounds : Option ScenegraphBounds} {w h : ℚ}
    {adj : BoxPadding} (hadj : computePaddingAdjustment bounds w h = some adj) :
    padNonneg adj := by
  cases bounds with
  | none => simp [computePaddingAdjustment] at hadj
  | some b =>
    simp only [computePaddingAdjustment] at hadj
    set L : ℚ := if b.x1 < 0 then ((⌈|b.x1| + OVERFLOW_EPSILON⌉ : ℤ) : ℚ) else 0 with hLdef
    set T : ℚ := if b.y1 < 0 then ((⌈|b.y1| + OVERFLOW_EPSILON⌉ : ℤ) : ℚ) else 0 with hTdef
    set R : ℚ := if w < b.x2 then ((⌈b.x2 - w + OVERFLOW_EPSILON⌉ : ℤ) : ℚ) else 0 with hRdef
    set B : ℚ := if h < b.y2 then ((⌈b.y2 - h + OVERFLOW_EPSILON⌉ : ℤ) : ℚ) else 0 with hBdef
    have habs1 : (0 : ℚ) ≤ |b.x1| := abs_nonneg _
    have habs2 : (0 : ℚ) ≤ |b.y1| := abs_nonneg _
    have hLn : 0 ≤ L := by
      rw [hLdef]; exact overflow_term_nonneg _ _ (fun _ => by unfold OVERFLOW_EPSILON; linarith)
    have hTn : 0 ≤ T := by
      rw [hTdef]; exact overflow_term_nonneg _ _ (fun _ => by unfold OVERFLOW_EPSILON; linarith)
    have hRn : 0 ≤ R := by
      rw [hRdef]; exact overflow_term_nonneg _ _ (fun hc => by unfold OVERFLOW_EPSILON; linarith)
    have hBn : 0 ≤ B := by
      rw [hBdef]; exact overflow_term_nonneg _ _ (fun hc => by unfold OVERFLOW_EPSILON; linarith)
    split at hadj
    · exact absurd hadj (by simp)
    · rw [Option.some.injEq] at hadj
      subst hadj
      exact ⟨hTn, hBn, hLn, hRn⟩

theorem padLe_addPadding {p adj : BoxPadding} (h : padNonneg adj) :
    padLe p (addPadding p adj) := by
  obtain ⟨h1, h2, h3, h4⟩ := h
  exact ⟨by simp [addPadding]; linarith, by simp [addPadding]; linarith,
    by simp [addPadding]; linarith, by simp [addPadding]; linarith⟩

theorem padNonneg_addPadding {p adj : BoxPadding} (hp : padNonneg p) (h : padNonneg adj) :
    padNonneg (addPadding p adj) := by
  obtain ⟨h1, h2, h3, h4⟩ := h
  obtain ⟨g1, g2, g3, g4⟩ := hp
  exact ⟨by simp [addPadding]; linarith, by simp [addPadding]; linarith,
    by simp [addPadding]; linarith, by simp [addPadding]; linarith⟩

theorem renderLoopGo_trace_head (render : BoxPadding → RenderResult) (fuel : ℕ)
    (p : BoxPadding) (svg : String) :
    (renderLoopGo render fuel p svg).2 = [] ∨
      ∃ t, (renderLoopGo render fuel p svg).2 = p :: t := by
  cases fuel with
  | zero => left; rfl
  | succ n =>
    right
    simp only [renderLoopGo]
    cases computePaddingAdjustment (render p).bounds (render p).viewWidth
        (render p).viewHeight with
    | none => exact ⟨[], rfl⟩
    | some adj => exact ⟨_, rfl⟩

theorem renderLoopGo_trace_invariant (render : BoxPadding → RenderResult) :
    ∀ (fuel : ℕ) (p : BoxPadding) (svg : String), padNonneg p →
      (∀ q ∈ (renderLoopGo render fuel p svg).2, padNonneg q) ∧
        (renderLoopGo render fuel p svg).2.Chain' padLe := by
  intro fuel
  induction fuel with
  | zero => intro p svg _; simp [renderLoopGo]
  | succ n ih =>
    intro p svg hp
    simp only [renderLoopGo]
    cases hadj : computePaddingAdjustment (render p).bounds (render p).viewWidth
        (render p).viewHeight with
    | none => simpa using hp
    | some adj =>
      have hadjn := computePaddingAdjustment_nonneg hadj
      have hnext := ih (addPadding p adj) (render p).svg (padNonneg_addPadding hp hadjn)
      constructor
      · intro q hq
        simp only [List.mem_cons] at hq
        rcases hq with rfl | hq
        · exact hp
        · exact hnext.1 q hq
      · rw [List.chain'_cons']
        refine ⟨?_, hnext.2⟩
        intro y hy
        rcases renderLoopGo_trace_head render n (addPadding p adj) (render p).svg with h0 | ⟨t, ht⟩
        · rw [h0] at hy; simp at hy
        · rw [ht] at hy
          simp only [List.head?_cons, Option.mem_def, Option.some.injEq] at hy
          subst hy
          exact padLe_addPadding hadjn

theorem overflow_term_eq_zero (c : Prop) [Decidable c] (q : ℚ) (hq : c → 0 < q) :
    ((if c then ((⌈q⌉ : ℤ) : ℚ) else 0) = 0 ↔ ¬c) := by
  by_cases hc : c
  · simp only [if_pos hc]
    constructor
    · intro h0 hc2
      have h2 : q ≤ ((⌈q⌉ : ℤ) : ℚ) := Int.le_ceil q
      rw [h0] at h2
      exact absurd (hq hc) (by linarith)
    · intro hn
      exact absurd hc hn
  · simp [if_neg hc, hc]

theorem ite_none_eq_none_iff (P : Prop) [Decidable P] (x : BoxPadding) :
    ((if P then (none : Option BoxPadding) else some x) = none) ↔ P := by
  by_cases h : P <;> simp [h]

theorem computePaddingAdjustment_some_eq {b : ScenegraphBounds} {w h : ℚ} {adj : BoxPadding}
    (hadj : computePaddingAdjustment (some b) w h = some adj) :
    adj.top = (if b.y1 < 0 then ((⌈|b.y1| + OVERFLOW_EPSILON⌉ : ℤ) : ℚ) else 0) ∧
    adj.bottom = (if h < b.y2 then ((⌈b.y2 - h + OVERFLOW_EPSILON⌉ : ℤ) : ℚ) else 0) ∧
    adj.left = (if b.x1 < 0 then ((⌈|b.x1| + OVERFLOW_EPSILON⌉ : ℤ) : ℚ) else 0) ∧
    adj.right = (if w < b.x2 then ((⌈b.x2 - w + OVERFLOW_EPSILON⌉ : ℤ) : ℚ) else 0) := by
  simp only [computePaddingAdjustment] at hadj
  set L : ℚ := if b.x1 < 0 then ((⌈|b.x1| + OVERFLOW_EPSILON⌉ : ℤ) : ℚ) else 0 with hLdef
  set T : ℚ := if b.y1 < 0 then ((⌈|b.y1| + OVERFLOW_EPSILON⌉ : ℤ) : ℚ) else 0 with hTdef
  set R : ℚ := if w < b.x2 then ((⌈b.x2 - w + OVERFLOW_EPSILON⌉ : ℤ) : ℚ) else 0 with hRdef
  set B : ℚ := if h < b.y2 then ((⌈b.y2 - h + OVERFLOW_EPSILON⌉ : ℤ) : ℚ) else 0 with hBdef
  split at hadj
  · exact absurd hadj (by simp)
  · rw [Option.some.injEq] at hadj
    subst hadj
    exact ⟨rfl, rfl, rfl, rfl⟩

/-- Claim C1 (amended): the render loop calls the external renderer at
most 3 times and stops at the first attempt whose reported bounds do not
exceed `[0,viewWidth] × [0,viewHeight]`; for a stub renderer reporting
overflow on attempt 1 and none on attempt 2, exactly 2 render calls are
made, and attempt 2's padding is attempt 1's padding plus, on each
overflowing side, the ceiling of (measured overflow + the 1-unit epsilon)
— exactly overflow + epsilon when the reported bounds are integral — and
is unchanged on sides without overflow. -/
theorem c1_render_loop :
    (∀ (render : BoxPadding → RenderResult) (padding : PaddingInput),
      (renderAttemptPaddings render padding).length ≤ 3) ∧
    (∀ (b : ScenegraphBounds) (w h : ℚ),
      computePaddingAdjustment (some b) w h = none ↔
        0 ≤ b.x1 ∧ 0 ≤ b.y1 ∧ b.x2 ≤ w ∧ b.y2 ≤ h) ∧
    (∀ (render : BoxPadding → RenderResult) (padding : PaddingInput),
      computePaddingAdjustment (render (normalizePadding padding DEFAULT_PADDING)).bounds
          (render (normalizePadding padding DEFAULT_PADDING)).viewWidth
          (render (normalizePadding padding DEFAULT_PADDING)).viewHeight = none →
        renderAttemptPaddings render padding = [normalizePadding padding DEFAULT_PADDING]) ∧
    (∀ (render : BoxPadding → RenderResult) (padding : PaddingInput) (adj : BoxPadding)
        (b : ScenegraphBounds),
      computePaddingAdjustment (render (normalizePadding padding DEFAULT_PADDING)).bounds
          (render (normalizePadding padding DEFAULT_PADDING)).viewWidth
          (render (normalizePadding padding DEFAULT_PADDING)).viewHeight = some adj →
      (render (normalizePadding padding DEFAULT_PADDING)).bounds = some b →
      computePaddingAdjustment
          (render (addPadding (normalizePadding padding DEFAULT_PADDING) adj)).bounds
          (render (addPadding (normalizePadding padding DEFAULT_PADDING) adj)).viewWidth
          (render (addPadding (normalizePadding padding DEFAULT_PADDING) adj)).viewHeight
        = none →
        renderAttemptPaddings render padding =
          [normalizePadding padding DEFAULT_PADDING,
            addPadding (normalizePadding padding DEFAULT_PADDING) adj] ∧
        adj.left =
          (if b.x1 < 0 then ((⌈|b.x1| + OVERFLOW_EPSILON⌉ : ℤ) : ℚ) else 0) ∧
        adj.top =
          (if b.y1 < 0 then ((⌈|b.y1| + OVERFLOW_EPSILON⌉ : ℤ) : ℚ) else 0) ∧
        adj.right =
          (if (render (normalizePadding padding DEFAULT_PADDING)).viewWidth < b.x2 then
            ((⌈b.x2 - (render (normalizePadding padding DEFAULT_PADDING)).viewWidth +
                OVERFLOW_EPSILON⌉ : ℤ) : ℚ)
          else 0) ∧
        adj.bottom =
          (if (render (normalizePadding padding DEFAULT_PADDING)).viewHeight < b.y2 then
            ((⌈b.y2 - (render (normalizePadding padding DEFAULT_PADDING)).viewHeight +
                OVERFLOW_EPSILON⌉ : ℤ) : ℚ)
          else 0)) := by
  refine ⟨?_, ?_, ?_, ?_⟩
  · intro render padding
    exact renderLoopGo_length render 3 (normalizePadding padding DEFAULT_PADDING) ""
  · intro b w h
    simp only [computePaddingAdjustment]
    rw [ite_none_eq_none_iff]
    have habs1 : (0 : ℚ) ≤ |b.x1| := abs_nonneg _
    have habs2 : (0 : ℚ) ≤ |b.y1| := abs_nonneg _
    rw [overflow_term_eq_zero _ _ (fun _ => by unfold OVERFLOW_EPSILON; linarith),
      overflow_term_eq_zero _ _ (fun _ => by unfold OVERFLOW_EPSILON; linarith),
      overflow_term_eq_zero _ _ (fun hc => by unfold OVERFLOW_EPSILON; linarith),
      overflow_term_eq_zero _ _ (fun hc => by unfold OVERFLOW_EPSILON; linarith),
      not_lt, not_lt, not_lt, not_lt]
  · intro render padding h0
    unfold renderAttemptPaddings renderPaddingLoop
    simp only [renderLoopGo, h0]
  · intro render padding adj b h1 hb h2
    have hside := computePaddingAdjustment_some_eq (hb ▸ h1)
    refine ⟨?_, hside.2.2.1, hside.1, hside.2.2.2, hside.2.1⟩
    unfold renderAttemptPaddings renderPaddingLoop
    simp only [renderLoopGo, h1, h2]

/-- Claim C1 counterexample: a stub renderer reports a fractional left
overflow of 1/2 on attempt 1 and none on attempt 2.  Exactly 2 render
calls are made, but attempt 2's left padding is 12 + ⌈1/2 + 1⌉ = 14,
not 12 + 1/2 + 1 = 13.5 as the claim's formula predicts. -/
theorem c1_counterexample :
    renderAttemptPaddings halfOverflowStub PaddingInput.absent =
      [{ top := 8, bottom := 12, left := 12, right := 28 },
       { top := 8, bottom := 12, left := 14, right := 28 }] ∧
    (halfOverflowStub { top := 8, bottom := 12, left := 12, right := 28 }).bounds =
      some { x1 := -(1/2), y1 := 0, x2 := 5, y2 := 5 } ∧
    ¬ ((14 : ℚ) = 12 + |(-(1/2) : ℚ)| + OVERFLOW_EPSILON) := by
  exact ⟨by decide, by decide, by decide⟩

/-- Witness for `c1_render_loop`: its two-attempt part applied to the
concrete stub renderer. -/
theorem c1_render_loop_witness :
    renderAttemptPaddings halfOverflowStub PaddingInput.absent =
      [{ top := 8, bottom := 12, left := 12, right := 28 },
       { top := 8, bottom := 12, left := 14, right := 28 }] := by
  have h := c1_render_loop.2.2.2 halfOverflowStub PaddingInput.absent
    { top := 0, bottom := 0, left := 2, right := 0 }
    { x1 := -(1/2), y1 := 0, x2 := 5, y2 := 5 } (by decide) (by decide) (by decide)
  exact h.1.trans (by decide)

theorem unescape_escape_list (l : List Char) :
    unescapeVegaList (l.flatMap escapeCharVega) = l := by
  induction l with
  | nil => rfl
  | cons c rest ih =>
    rw [List.flatMap_cons]
    by_cases h1 : c = '\\'
    · subst h1; simp [escapeCharVega, unescapeVegaList, unescapeCharVega, ih]
    · by_cases h2 : c = '\''
      · subst h2; simp [escapeCharVega, unescapeVegaList, unescapeCharVega, ih]
      · by_cases h3 : c = '\n'
        · subst h3; simp [escapeCharVega, unescapeVegaList, unescapeCharVega, ih]
        · by_cases h4 : c = '\r'
          · subst h4; simp [escapeCharVega, unescapeVegaList, unescapeCharVega, ih]
          · by_cases h5 : c = '\t'
            · subst h5; simp [escapeCharVega, unescapeVegaList, unescapeCharVega, ih]
            · simp only [escapeCharVega, if_neg h1, if_neg h2, if_neg h3, if_neg h4, if_neg h5,
                List.singleton_append]
              cases hrest : rest.flatMap escapeCharVega with
              | nil =>
                rw [hrest] at ih
                simp only [unescapeVegaList] at ih
                rw [← ih]
                simp [unescapeVegaList]
              | cons d ds =>
                simp only [unescapeVegaList, if_neg h1]
                rw [← hrest, ih]

theorem unescape_escapeForVegaExpr (s : String) :
    unescapeVegaExpr (escapeForVegaExpr s) = s := by
  cases s with
  | mk data => exact congrArg String.mk (unescape_escape_list data)

theorem strAppend_assoc (a b c : String) : (a ++ b) ++ c = a ++ (b ++ c) := by
  cases a with
  | mk x =>
    cases b with
    | mk y =>
      cases c with
      | mk z => exact congrArg String.mk (List.append_assoc x y z)

theorem labelExprChain_infix {entries : List (String × String)} {kv : String × String}
    (h : kv ∈ entries) :
    ∃ pre post : String, labelExprChain entries = pre ++ labelExprCond kv post := by
  induction entries with
  | nil => cases h
  | cons e es ih =>
    rcases List.mem_cons.mp h with rfl | h2
    · exact ⟨"", labelExprChain es, rfl⟩
    · obtain ⟨pre, post, hpp⟩ := ih h2
      refine ⟨"datum.value === '" ++ (escapeForVegaExpr e.1 ++ ("' ? '" ++
        (escapeForVegaExpr e.2 ++ ("' : " ++ pre)))), post, ?_⟩
      have h1 : labelExprChain (e :: es) = labelExprCond e (labelExprChain es) := rfl
      rw [h1, hpp, labelExprCond]
      simp only [strAppend_assoc]

/-- Claim C3: for every axis encoding that references a named lookup map,
the synthesized chained conditional expression tests the first entry (in
insertion order) first; a missing referenced map yields the identity
expression on the raw value; the rewritten axis carries the synthesized
expression with the custom-format marker deleted; and the top-level
lookup-map table is deleted from the output spec. -/
theorem c3_formatter_transform :
    (∀ (maps : FormatterMaps) (name : String) (k v : String) (rest : List (String × String)),
      lookupMap maps name = some ((k, v) :: rest) →
        createLabelExpr maps name =
          "datum.value === '" ++ escapeForVegaExpr k ++ "' ? '" ++ escapeForVegaExpr v ++
            "' : " ++ labelExprChain rest) ∧
    (∀ (maps : FormatterMaps) (name : String),
      lookupMap maps name = none → createLabelExpr maps name = "datum.value") ∧
    (∀ (maps : FormatterMaps) (a : AxisDef) (f : AxisFormat),
      a.format = some f → f.custom = true →
        transformAxis maps a =
          { format := none, labelExpr := some (createLabelExpr maps f.mapName) }) ∧
    (∀ s : VegaLiteSpec, (transformVegaLiteSpec s).customFormatterMaps = none) := by
  refine ⟨?_, ?_, ?_, ?_⟩
  · intro maps name k v rest h
    simp [createLabelExpr, h, labelExprChain, labelExprCond]
  · intro maps name h
    simp [createLabelExpr, h]
  · intro maps a f hf hc
    simp [transformAxis, hf, hc]
  · intro s
    unfold transformVegaLiteSpec
    dsimp only
    cases htop : transformLayer (s.customFormatterMaps.getD [])
        (.node s.xAxis s.yAxis s.children) with
    | node x y cs => rfl

/-- Witness for `c3_formatter_transform` at a concrete one-entry map. -/
theorem c3_witness :
    createLabelExpr [("m", [("a", "b")])] "m" =
      "datum.value === 'a' ? 'b' : datum.value" ∧
    createLabelExpr [("m", [("a", "b")])] "missing" = "datum.value" ∧
    transformAxis [("m", [("a", "b")])]
        { format := some { custom := true, mapName := "m" }, labelExpr := none } =
      { format := none, labelExpr := some "datum.value === 'a' ? 'b' : datum.value" } := by
  refine ⟨?_, ?_, ?_⟩
  · exact (c3_formatter_transform.1 [("m", [("a", "b")])] "m" "a" "b" [] (by decide)).trans
      (by decide)
  · exact c3_formatter_transform.2.1 [("m", [("a", "b")])] "missing" (by decide)
  · exact (c3_formatter_transform.2.2.1 [("m", [("a", "b")])]
      { format := some { custom := true, mapName := "m" }, labelExpr := none }
      { custom := true, mapName := "m" } rfl rfl).trans (by decide)

/-- Claim C4: for every lookup map and every `(key, value)` pair in it,
the synthesized conditional expression embeds the escaped key and value,
and unescaping the escaped strings recovers the originals verbatim. -/
theorem c4_escape_roundtrip :
    (∀ s : String, unescapeVegaExpr (escapeForVegaExpr s) = s) ∧
    (∀ (maps : FormatterMaps) (name : String) (entries : List (String × String))
        (kv : String × String),
      lookupMap maps name = some entries → kv ∈ entries →
        (∃ pre post : String, createLabelExpr maps name = pre ++ labelExprCond kv post) ∧
        unescapeVegaExpr (escapeForVegaExpr kv.1) = kv.1 ∧
        unescapeVegaExpr (escapeForVegaExpr kv.2) = kv.2) := by
  refine ⟨unescape_escapeForVegaExpr, ?_⟩
  intro maps name entries kv hl hm
  refine ⟨?_, unescape_escapeForVegaExpr kv.1, unescape_escapeForVegaExpr kv.2⟩
  obtain ⟨pre, post, hpp⟩ := labelExprChain_infix hm
  refine ⟨pre, post, ?_⟩
  simp only [createLabelExpr, hl]
  exact hpp

/-- Witness for `c4_escape_roundtrip` at a concrete map whose key and
value contain every escaped character. -/
theorem c4_witness :
    unescapeVegaExpr (escapeForVegaExpr "a\\b'c\n\r\t") = "a\\b'c\n\r\t" ∧
    (∃ pre post : String,
      createLabelExpr [("m", [("a", "b")])] "m" = pre ++ labelExprCond ("a", "b") post) := by
  exact ⟨c4_escape_roundtrip.1 "a\\b'c\n\r\t",
    (c4_escape_roundtrip.2 [("m", [("a", "b")])] "m" [("a", "b")] ("a", "b")
      (by decide) (by decide)).1⟩

/-- Claim C2: on every invocation of the render loop, for every initial
padding input (uniform scalar, partial override, or absent), the padding
box used on each render attempt has all four margins non-negative, and
each margin is monotonically non-decreasing from one attempt to the
next. -/
theorem c2_padding_invariant (render : BoxPadding → RenderResult) (padding : PaddingInput) :
    (∀ p ∈ renderAttemptPaddings render padding, padNonneg p) ∧
      (renderAttemptPaddings render padding).Chain' padLe :=
  renderLoopGo_trace_invariant render 3 (normalizePadding padding DEFAULT_PADDING) ""
    (normalizePadding_nonneg padding DEFAULT_PADDING)

/-! ### Frame algebra for the transform stack -/

theorem jadd_some (a b : ℚ) : jadd (some a) (some b) = some (a + b) := rfl

theorem jsub_some (a b : ℚ) : jsub (some a) (some b) = some (a - b) := rfl

theorem jmul_some (a b : ℚ) : jmul (some a) (some b) = some (a * b) := rfl

theorem jdiv_some (a b : ℚ) : jdiv (some a) (some b) = some (a / b) := rfl

theorem jmin_some (a b : ℚ) : jmin (some a) (some b) = some (min a b) := rfl

theorem jmax_some (a b : ℚ) : jmax (some a) (some b) = some (max a b) := rfl

theorem jlt_some (a b : ℚ) : jlt (some a) (some b) = decide (a < b) := rfl

theorem jabs_some (a : ℚ) : jabs (some a) = some |a| := rfl

theorem addFrames_assoc (a b c : TransformFrame) :
    addFrames (addFrames a b) c = addFrames a (addFrames b c) := by
  simp [addFrames, add_assoc]

theorem addFrames_base_right (a : TransformFrame) : addFrames a baseFrame = a := by
  cases a
  simp [addFrames, baseFrame]

theorem addFrames_base_left (a : TransformFrame) : addFrames baseFrame a = a := by
  cases a
  simp [addFrames, baseFrame]

theorem foldl_addFrames_shift (fs : List TransformFrame) :
    ∀ a b : TransformFrame,
      fs.foldl addFrames (addFrames a b) = addFrames a (fs.foldl addFrames b) := by
  induction fs with
  | nil => intro a b; rfl
  | cons f fs ih =>
    intro a b
    simp only [List.foldl_cons, addFrames_assoc]
    exact ih a (addFrames b f)

theorem addFrames_sumFrames (x : TransformFrame) (fs : List TransformFrame) :
    addFrames x (sumFrames fs) = fs.foldl addFrames x := by
  rw [sumFrames, ← foldl_addFrames_shift fs x baseFrame, addFrames_base_right]

theorem scan_nested_mark (b : ShapeBox) :
    ∀ (fs : List TransformFrame) (st : SvgScanState), st.stack ≠ [] →
      List.foldl svgScanStep st
          (fs.map SvgEvent.enter ++ SvgEvent.mark baseFrame (some b) ::
            List.replicate fs.length SvgEvent.leave) =
        { stack := st.stack,
          boxes := st.boxes ++
            [offsetShapeBox b (addFrames (st.stack.headD baseFrame) (sumFrames fs))] } := by
  intro fs
  induction fs with
  | nil =>
    intro st hst
    simp only [List.map_nil, List.nil_append, List.length_nil, List.replicate_zero,
      List.foldl_cons, List.foldl_nil]
    rfl
  | cons f fs ih =>
    intro st hst
    have hrep : List.replicate (f :: fs).length SvgEvent.leave =
        List.replicate fs.length SvgEvent.leave ++ [SvgEvent.leave] := by
      rw [List.length_cons, List.replicate_succ']
    rw [hrep, List.map_cons]
    have hassoc :
        (SvgEvent.enter f :: fs.map SvgEvent.enter) ++ SvgEvent.mark baseFrame (some b) ::
            (List.replicate fs.length SvgEvent.leave ++ [SvgEvent.leave]) =
          SvgEvent.enter f :: ((fs.map SvgEvent.enter ++ SvgEvent.mark baseFrame (some b) ::
            List.replicate fs.length SvgEvent.leave) ++ [SvgEvent.leave]) := by
      simp
    rw [hassoc, List.foldl_cons, List.foldl_append]
    have hst1 : (svgScanStep st (SvgEvent.enter f)).stack ≠ [] := by
      simp [svgScanStep]
    rw [ih (svgScanStep st (SvgEvent.enter f)) hst1]
    have hlen : 0 < st.stack.length := List.length_pos.mpr hst
    have hleave :
        svgScanStep
            ({ stack := (svgScanStep st (SvgEvent.enter f)).stack,
               boxes := (svgScanStep st (SvgEvent.enter f)).boxes ++
                 [offsetShapeBox b
                   (addFrames ((svgScanStep st (SvgEvent.enter f)).stack.headD baseFrame)
                     (sumFrames fs))] } : SvgScanState) SvgEvent.leave =
          { stack := st.stack,
            boxes := st.boxes ++
              [offsetShapeBox b
                (addFrames (addFrames (st.stack.headD baseFrame) f) (sumFrames fs))] } := by
      simp only [svgScanStep]
      rw [if_pos (by simp only [List.length_cons]; omega)]
      rfl
    rw [List.foldl_cons, List.foldl_nil, hleave]
    rw [addFrames_sumFrames, addFrames_sumFrames, List.foldl_cons]

/-- Claim C5: a circle's untransformed box is
`(cx-r, cy-r)-(cx+r, cy+r)` (concretely, cx=cy=50, r=10 gives
`(40,40)-(60,60)`), and a shape nested inside translating groups
contributes its box offset by the sum of the enclosing translations
(concretely, groups translated by (10,20) then (5,5) offset the circle's
box by (15,25)). -/
theorem c5_circle_extraction :
    (∀ cx cy r : ℚ, getCircleBounds (some cx) (some cy) (some r) =
      { minX := some (cx - r), minY := some (cy - r),
        maxX := some (cx + r), maxY := some (cy + r) }) ∧
    calculateSvgContentBounds circleSvgExample =
      some { minX := some 40, minY := some 40, maxX := some 60, maxY := some 60 } ∧
    (∀ (fs : List TransformFrame) (b : ShapeBox),
      scanEventBoxes (fs.map SvgEvent.enter ++ SvgEvent.mark baseFrame (some b) ::
          List.replicate fs.length SvgEvent.leave) =
        [offsetShapeBox b (sumFrames fs)]) ∧
    calculateSvgContentBounds nestedCircleSvgExample =
      some { minX := some 55, minY := some 65, maxX := some 75, maxY := some 85 } := by
  refine ⟨?_, by decide, ?_, by decide⟩
  · intro cx cy r
    rfl
  · intro fs b
    rw [scanEventBoxes, scan_nested_mark b fs initSvgScanState (by simp [initSvgScanState])]
    simp [initSvgScanState, addFrames_base_left]

/-- Claim C6 (amended): the text box is centered at x with full estimated
width `0.6 x characterCount` (no font-size factor; half-width
`0.3 x characterCount`) when text content is available and
`5 x fontSize` (half-width `2.5 x fontSize`) otherwise, and extends
`1.2 x fontSize` above the baseline and `0.6 x fontSize` below it. -/
theorem c6_text_bounds :
    (∀ (x y fontSize : ℚ) (textLength : ℕ), 0 < textLength →
      getTextBounds (some x) (some y) (some fontSize) textLength =
        { minX := some (x - (3 / 10) * textLength),
          minY := some (y - (12 / 10) * fontSize),
          maxX := some (x + (3 / 10) * textLength),
          maxY := some (y + (6 / 10) * fontSize) }) ∧
    (∀ x y fontSize : ℚ,
      getTextBounds (some x) (some y) (some fontSize) 0 =
        { minX := some (x - (5 / 2) * fontSize),
          minY := some (y - (12 / 10) * fontSize),
          maxX := some (x + (5 / 2) * fontSize),
          maxY := some (y + (6 / 10) * fontSize) }) := by
  constructor
  · intro x y fontSize textLength h
    simp only [getTextBounds, if_pos h, jmul_some, jsub_some, jadd_some, jdiv_some,
      ShapeBox.mk.injEq, Option.some.injEq]
    refine ⟨by ring, by ring, by ring, by ring⟩
  · intro x y fontSize
    simp only [getTextBounds, lt_self_iff_false, if_false, jmul_some, jsub_some, jadd_some,
      jdiv_some, ShapeBox.mk.injEq, Option.some.injEq]
    refine ⟨by ring, by ring, by ring, by ring⟩

/-- Claim C6 counterexample: for x=y=0, fontSize=10, characterCount=10
the code's box has `minX = -3`, not `-(0.6 x 10 x 10) = -60` as the
claim's half-width formula demands, and extends `0.6 x fontSize = 6`
below the baseline, not `0.5 x fontSize = 5`. -/
theorem c6_counterexample :
    (getTextBounds (some 0) (some 0) (some 10) 10).minX = some (-3) ∧
    ¬ ((-3 : ℚ) = 0 - (6 / 10) * 10 * 10) ∧
    (getTextBounds (some 0) (some 0) (some 10) 10).maxY = some 6 ∧
    ¬ ((6 : ℚ) = 0 + (5 / 10) * 10) := by
  exact ⟨by decide, by decide, by decide, by decide⟩

/-- Witness for `c6_text_bounds` at x=y=0, fontSize=10, textLength=10. -/
theorem c6_witness :
    getTextBounds (some 0) (some 0) (some 10) 10 =
      { minX := some (-3), minY := some (-12), maxX := some 3, maxY := some 6 } := by
  have h := c6_text_bounds.1 0 0 10 10 (by norm_num)
  exact h.trans (by decide)

/-! ### Path-failure isolation and stack safety -/

theorem tokenizePathGo_no_cmds :
    ∀ (fuel : ℕ) (l : List Char), (∀ c ∈ l, isPathCmdChar c = false) →
      tokenizePathGo fuel l = [] := by
  intro fuel
  induction fuel with
  | zero =>
    intro l _
    cases l <;> rfl
  | succ n ih =>
    intro l h
    cases l with
    | nil => rfl
    | cons c rest =>
      have hc := h c (List.mem_cons_self c rest)
      simp only [tokenizePathGo, hc, Bool.false_eq_true, if_false]
      exact ih rest (fun d hd => h d (List.mem_cons_of_mem c hd))

theorem getPathBounds_no_cmds (d : List Char) (h : ∀ c ∈ d, isPathCmdChar c = false) :
    getPathBounds d = none := by
  unfold getPathBounds tokenizePath
  rw [tokenizePathGo_no_cmds d.length d h]
  rfl

/-- Claim C9: path data without recognized commands contributes no box
(`getPathBounds` is `none`); a boxless mark leaves the scan state of
every other shape untouched; and content bounds are absent exactly when
no shape in the whole markup yielded a box. -/
theorem c9_path_failure_isolated :
    (∀ d : List Char, (∀ c ∈ d, isPathCmdChar c = false) → getPathBounds d = none) ∧
    (∀ (pre post : List SvgEvent) (f : TransformFrame),
      (pre ++ SvgEvent.mark f none :: post).foldl svgScanStep initSvgScanState =
        (pre ++ post).foldl svgScanStep initSvgScanState) ∧
    (∀ s : String, calculateSvgContentBounds s = none ↔ svgShapeBoxes s = []) := by
  refine ⟨getPathBounds_no_cmds, ?_, ?_⟩
  · intro pre post f
    simp only [List.foldl_append, List.foldl_cons]
    rfl
  · intro s
    unfold calculateSvgContentBounds
    cases h : svgShapeBoxes s with
    | nil => simp
    | cons b bs => simp

/-- Witness for `c9_path_failure_isolated`: arc-only path data (the `A`
command is unrecognized) yields no box. -/
theorem c9_witness : getPathBounds "A 10 10 0 0 1 20 20".data = none := by
  exact c9_path_failure_isolated.1 "A 10 10 0 0 1 20 20".data (by decide)

theorem svgScanStep_stack_getLast (st : SvgScanState) (ev : SvgEvent)
    (h : st.stack.getLast? = some baseFrame) :
    (svgScanStep st ev).stack.getLast? = some baseFrame := by
  cases ev with
  | enter f =>
    have hne : st.stack ≠ [] := by
      intro h0
      rw [h0] at h
      simp at h
    simp only [svgScanStep]
    cases hs : st.stack with
    | nil => exact absurd hs hne
    | cons a t =>
      rw [List.getLast?_cons_cons]
      rw [hs] at h
      exact h
  | leave =>
    simp only [svgScanStep]
    split
    · rename_i hlen
      cases hs : st.stack with
      | nil => rw [hs] at hlen; simp at hlen
      | cons a t =>
        cases ht : t with
        | nil =>
          rw [hs, ht] at hlen
          simp at hlen
        | cons b u =>
          rw [hs, ht] at h
          rw [List.getLast?_cons_cons] at h
          simp only [hs, ht, List.tail_cons]
          exact h
    · exact h
  | mark f b =>
    cases b with
    | none => exact h
    | some box =>
      simp only [svgScanStep]
      exact h

/-- Claim C10: for every input, at every step of the scan the transform
stack is non-empty with the base identity frame at the bottom; a surplus
group-close on the base stack is ignored; and the full scan of any
string ends with the base frame still on the stack. -/
theorem c10_stack_safety :
    (∀ (evs : List SvgEvent) (n : ℕ),
      (((evs.take n).foldl svgScanStep initSvgScanState).stack.getLast? = some baseFrame) ∧
        ((evs.take n).foldl svgScanStep initSvgScanState).stack ≠ []) ∧
    (∀ (f : TransformFrame) (boxes : List ShapeBox),
      svgScanStep { stack := [f], boxes := boxes } SvgEvent.leave =
        { stack := [f], boxes := boxes }) ∧
    (∀ s : String,
      ((svgEvents s).foldl svgScanStep initSvgScanState).stack.getLast? = some baseFrame) := by
  have key : ∀ (evs : List SvgEvent) (st : SvgScanState),
      st.stack.getLast? = some baseFrame →
        ((evs.foldl svgScanStep st).stack.getLast? = some baseFrame) := by
    intro evs
    induction evs with
    | nil => intro st h; exact h
    | cons ev evs ih =>
      intro st h
      exact ih _ (svgScanStep_stack_getLast st ev h)
  refine ⟨?_, ?_, ?_⟩
  · intro evs n
    have h := key (evs.take n) initSvgScanState rfl
    refine ⟨h, ?_⟩
    intro h0
    rw [h0] at h
    simp at h
  · intro f boxes
    rfl
  · intro s
    exact key (svgEvents s) initSvgScanState rfl

/-! ### ViewportFitter invariants and idempotence -/

theorem clampViewBoxAxis_some (m e : ℚ) (hm : m ≤ 0) :
    ∃ w : ℚ, clampViewBoxAxis (some m) (some e) = (some 0, some w) ∧ 1 ≤ w := by
  have hm0 : (if jlt (some m) (some 0) = true then
        ((some 0 : JNum), jadd (some e) (jabs (some m))) else (some m, some e)) =
      (some 0, some (e + |m|)) := by
    by_cases h : m < 0
    · simp [jlt_some, h, jadd, jabs]
    · have h0 : m = 0 := le_antisymm hm (not_lt.mp h)
      subst h0
      simp [jlt_some, jadd, jabs]
  unfold clampViewBoxAxis
  rw [hm0]
  by_cases h2 : e + |m| < 1
  · exact ⟨1, by simp [jlt_some, h2], le_refl 1⟩
  · exact ⟨e + |m|, by simp [jlt_some, h2], not_lt.mp h2⟩

theorem computeViewBoxNums_finite (cb : ShapeBox) (attrs : SvgRootAttrs)
    (mnx mny mxx mxy : ℚ)
    (h1 : cb.minX = some mnx) (h2 : cb.minY = some mny)
    (h3 : cb.maxX = some mxx) (h4 : cb.maxY = some mxy)
    (hw : attrs.width = none ∨ ∃ q : ℚ, attrs.width = some (some q))
    (hh : attrs.height = none ∨ ∃ q : ℚ, attrs.height = some (some q)) :
    ∃ w h : ℚ, computeViewBoxNums cb attrs =
      { minX := some 0, minY := some 0, width := some w, height := some h } ∧
      1 ≤ w ∧ 1 ≤ h := by
  obtain ⟨sw, hsw⟩ : ∃ q : ℚ, jcoalesce attrs.width cb.maxX = some q := by
    rcases hw with hw0 | ⟨q, hq⟩
    · exact ⟨mxx, by rw [jcoalesce, hw0]; exact h3⟩
    · exact ⟨q, by rw [jcoalesce, hq]; rfl⟩
  obtain ⟨sh, hsh⟩ : ∃ q : ℚ, jcoalesce attrs.height cb.maxY = some q := by
    rcases hh with hh0 | ⟨q, hq⟩
    · exact ⟨mxy, by rw [jcoalesce, hh0]; exact h4⟩
    · exact ⟨q, by rw [jcoalesce, hq]; rfl⟩
  unfold computeViewBoxNums
  rw [hsw, hsh, h1, h2, h3, h4]
  simp only [jsub_some, jadd_some, jmul_some, jmin_some, jmax_some]
  obtain ⟨w, hwc, hw1⟩ := clampViewBoxAxis_some
    (min 0 (mnx - max 5 ((mxx - mnx) * (2 / 100))))
    (max sw (mxx + max 5 ((mxx - mnx) * (2 / 100))) -
      min 0 (mnx - max 5 ((mxx - mnx) * (2 / 100))))
    (min_le_left _ _)
  obtain ⟨h, hhc, hh1⟩ := clampViewBoxAxis_some
    (min 0 (mny - max 5 ((mxy - mny) * (2 / 100))))
    (max sh (mxy + max 5 ((mxy - mny) * (2 / 100))) -
      min 0 (mny - max 5 ((mxy - mny) * (2 / 100))))
    (min_le_left _ _)
  rw [hwc, hhc]
  exact ⟨w, h, rfl, hw1, hh1⟩

/-- Claim C7 (amended): whenever the extracted content bounds and the
declared width/height parse as finite numbers (no `NaN`), the final
region has minimum corner exactly (0,0) and width, height ≥ 1; and on an
axis whose unioned margin-expanded minimum is negative, the extent grows
by that minimum's absolute value (then floored at 1) while the minimum
resets to 0. -/
theorem c7_viewbox_clamp :
    (∀ (s : String) (cb : ShapeBox) (mnx mny mxx mxy : ℚ),
      calculateSvgContentBounds s = some cb →
      cb.minX = some mnx → cb.minY = some mny →
      cb.maxX = some mxx → cb.maxY = some mxy →
      ((parseSvgAttributes s).width = none ∨
        ∃ q : ℚ, (parseSvgAttributes s).width = some (some q)) →
      ((parseSvgAttributes s).height = none ∨
        ∃ q : ℚ, (parseSvgAttributes s).height = some (some q)) →
      ∃ w h : ℚ, finalViewBoxNums s =
        some { minX := some 0, minY := some 0, width := some w, height := some h } ∧
        1 ≤ w ∧ 1 ≤ h) ∧
    (∀ m e : ℚ, m < 0 →
      clampViewBoxAxis (some m) (some e) =
        (some 0, if e + |m| < 1 then some 1 else some (e + |m|))) := by
  constructor
  · intro s cb mnx mny mxx mxy hcb h1 h2 h3 h4 hw hh
    obtain ⟨w, h, hn, hw1, hh1⟩ := computeViewBoxNums_finite cb (parseSvgAttributes s)
      mnx mny mxx mxy h1 h2 h3 h4 hw hh
    refine ⟨w, h, ?_, hw1, hh1⟩
    rw [finalViewBoxNums, hcb, Option.map_some', hn]
  · intro m e hm
    by_cases h2 : e + |m| < 1 <;>
      simp [clampViewBoxAxis, jlt_some, hm, h2, jadd, jabs]

/-- Claim C7 counterexample: with an unparsable declared width/height
(`width="z"`), `NaN` reaches the final region: its width and height are
`NaN`, which is not a number ≥ 1, even though content bounds are present
and finite. -/
theorem c7_counterexample :
    finalViewBoxNums nanWidthSvgExample =
      some { minX := some 0, minY := some 0, width := none, height := none } ∧
    (∀ q : ℚ, ((none : JNum) = some q ∧ 1 ≤ q) → False) := by
  refine ⟨by decide, ?_⟩
  intro q h
  exact Option.noConfusion h.1

/-- Witness for `c7_viewbox_clamp` on a plain well-formed document. -/
theorem c7_witness :
    (∃ w h : ℚ, finalViewBoxNums plainSvgExample =
      some { minX := some 0, minY := some 0, width := some w, height := some h } ∧
      1 ≤ w ∧ 1 ≤ h) ∧
    clampViewBoxAxis (some (-7)) (some 20) = (some 0, some 27) := by
  constructor
  · exact c7_viewbox_clamp.1 plainSvgExample
      { minX := some 4, minY := some 4, maxX := some 6, maxY := some 6 } 4 4 6 6
      (by decide) rfl rfl rfl rfl (Or.inr ⟨10, by decide⟩) (Or.inr ⟨10, by decide⟩)
  · have h := c7_viewbox_clamp.2 (-7) 20 (by norm_num)
    rw [h]
    norm_num

theorem computeViewBoxNums_congr (cb : ShapeBox) (a b : SvgRootAttrs)
    (hw : a.width = b.width) (hh : a.height = b.height) :
    computeViewBoxNums cb a = computeViewBoxNums cb b := by
  cases a
  cases b
  simp only at hw hh
  subst hw
  subst hh
  rfl

/-- Claim C8 (amended): the region the fitter computes depends only on
the extracted content bounds and the declared width/height, so a second
application computes the same region whenever the first rewrite left
those unchanged (pathological markup whose root tag sits inside a shape
tag's attribute span can violate that premise). -/
theorem c8_fitter_idempotent :
    ∀ s : String,
      calculateSvgContentBounds (adjustSvgViewBox s) = calculateSvgContentBounds s →
      (parseSvgAttributes (adjustSvgViewBox s)).width = (parseSvgAttributes s).width →
      (parseSvgAttributes (adjustSvgViewBox s)).height = (parseSvgAttributes s).height →
      computeNewViewBox (adjustSvgViewBox s) = computeNewViewBox s := by
  intro s h1 h2 h3
  unfold computeNewViewBox finalViewBoxNums
  rw [h1]
  cases hcb : calculateSvgContentBounds s with
  | none => rfl
  | some cb =>
    simp only [Option.map_some']
    rw [computeViewBoxNums_congr cb _ _ h2 h3]

/-- Claim C8 counterexample: on markup whose root tag lies inside a text
element's attribute span, the inserted viewBox attribute itself matches
the text element's `x=` attribute scan on the second pass, the extracted
bounds change, and re-running the fitter rewrites the visible region to
a different value. -/
theorem c8_counterexample :
    (parseSvgAttributes (adjustSvgViewBox pathologicalSvgExample)).viewBox =
      some ("0 0 22 22".data) ∧
    (parseSvgAttributes (adjustSvgViewBox (adjustSvgViewBox pathologicalSvgExample))).viewBox =
      some ("0 0 120 288/5".data) ∧
    (parseSvgAttributes (adjustSvgViewBox (adjustSvgViewBox pathologicalSvgExample))).viewBox ≠
      (parseSvgAttributes (adjustSvgViewBox pathologicalSvgExample)).viewBox := by
  exact ⟨by decide, by decide, by decide⟩

/-- Witness for `c8_fitter_idempotent` on a plain well-formed document. -/
theorem c8_witness :
    computeNewViewBox (adjustSvgViewBox plainSvgExample) = computeNewViewBox plainSvgExample := by
  exact c8_fitter_idempotent plainSvgExample (by decide) (by decide) (by decide)
